import Mathlib

/-!
Shallow embedding of the shopping-cart / order / review-aggregation core of
the `Shubz224/ecom` backend, and proofs of the specified properties.

Sources embedded (JavaScript → Lean):
* Cart model (`cartSchema`): the `pre('save')` total-recomputation hooks and
  the instance methods `addItem`, `updateItemQuantity`, `removeItem`,
  `clearCart`, `applyDiscount`.
* Product model: `reduceStock`, `updateRating`.
* Order model: `canCancel`, `cancelOrder`.
* Order controller: `createOrder` (checkout) and `cancelOrder` (stock
  restoration loop).

Modelling conventions: monetary amounts are integers (the JS code uses JS
numbers; the spec mandates integer minor units), quantities are integers,
document ids are naturals, the Mongo product collection is a `List Product`
looked up by id (first match, as `findById` on unique ids), and a document
"save" is the pure recomputation performed by the schema's pre-save hooks.
Fallible methods return `Except`, mirroring thrown errors.
-/

namespace Ecom

/-- A selected product variant as stored on a cart line
(`selectedVariant: { name, value, price }`). -/
structure Variant where
  name : String
  value : String
  price : Int
deriving DecidableEq, Repr

/-- One cart line (`cartItemSchema`).  `id` models the subdocument `_id`. -/
structure CartItem where
  id : Nat
  product : Nat
  productName : String
  productImage : String
  productPrice : Int
  quantity : Int
  selectedVariant : Option Variant
  itemTotal : Int
deriving DecidableEq, Repr

/-- The cart document (`cartSchema`), with its stored derived totals. -/
structure Cart where
  items : List CartItem
  subtotal : Int
  totalItems : Nat
  totalQuantity : Int
  discountAmount : Int
  shippingCost : Int
  grandTotal : Int
  isActive : Bool
deriving DecidableEq, Repr

/-- A catalog product, restricted to the fields the embedded logic touches. -/
structure Product where
  id : Nat
  price : Int
  stock : Int
  isActive : Bool
  rating : ℚ
  numReviews : Nat
deriving DecidableEq, Repr

/-- The product snapshot handed to `Cart.addItem` by the cart controller
(`{ _id, name, images, price }`, with `images[0]?.url || ''` collapsed to a
single string). -/
structure ProductData where
  id : Nat
  name : String
  image : String
  price : Int
deriving DecidableEq, Repr

/-- One order line (`orderItemSchema`). -/
structure OrderItem where
  product : Nat
  productName : String
  productImage : String
  quantity : Int
  price : Int
  selectedVariant : Option Variant
  itemTotal : Int
deriving DecidableEq, Repr

/-- The `orderStatus` enum. -/
inductive OrderStatus where
  | pending
  | confirmed
  | processing
  | shipped
  | delivered
  | cancelled
  | returned
deriving DecidableEq, Repr

/-- The order document (`orderSchema`), restricted to the fields the
embedded logic touches.  `statusHistory` records the statuses appended by
the pre-save hook. -/
structure Order where
  items : List OrderItem
  subtotal : Int
  discountAmount : Int
  shippingCost : Int
  tax : Int
  totalAmount : Int
  orderStatus : OrderStatus
  statusHistory : List OrderStatus
deriving DecidableEq, Repr

/-- A review document (`reviewSchema`), restricted to the fields
`Product.updateRating` and its moderation flags involve. -/
structure Review where
  product : Nat
  rating : Int
  isActive : Bool
  isApproved : Bool
deriving DecidableEq, Repr

/-- Errors thrown by cart methods (`throw new Error('Item not found in cart')`). -/
inductive CartError where
  | notFound
deriving DecidableEq, Repr

/-- Errors thrown by order methods
(`throw new Error('Order cannot be cancelled at this stage')`). -/
inductive OrderError where
  | invalidState
deriving DecidableEq, Repr

/-! ### Generic list helpers (first-match update / erase, as Mongoose
`items.id(itemId)` mutation and subdocument `remove()`). -/

/-- Apply `f` to the first element satisfying `p`; leave the rest unchanged. -/
def updateFirst (p : α → Bool) (f : α → α) : List α → List α
  | [] => []
  | x :: xs => if p x then f x :: xs else x :: updateFirst p f xs

/-- Erase the first element satisfying `p`. -/
def eraseFirst (p : α → Bool) : List α → List α
  | [] => []
  | x :: xs => if p x then xs else x :: eraseFirst p xs

/-! ### Cart: totals recomputation (the two `pre('save')` hooks) -/

/-- The effective price of a cart line:
`item.selectedVariant ? item.selectedVariant.price : item.productPrice`. -/
def effectivePrice (it : CartItem) : Int :=
  match it.selectedVariant with
  | some v => v.price
  | none => it.productPrice

/-- Per-line recomputation `item.itemTotal = price * item.quantity`
performed by the first pre-save hook. -/
def recomputeItem (it : CartItem) : CartItem :=
  { it with itemTotal := effectivePrice it * it.quantity }

/-- Persisting a cart: both `pre('save')` hooks of `cartSchema`.  Recomputes
every line's `itemTotal`, then `subtotal`, `totalItems`, `totalQuantity`,
`grandTotal = subtotal - discountAmount + shippingCost`, and marks the cart
inactive when it has become empty. -/
def saveCart (c : Cart) : Cart :=
  let items := c.items.map recomputeItem
  let st := (items.map (fun it => it.itemTotal)).sum
  { c with
    items := items
    subtotal := st
    totalItems := items.length
    totalQuantity := (items.map (fun it => it.quantity)).sum
    grandTotal := st - c.discountAmount + c.shippingCost
    isActive := if items.isEmpty then false else c.isActive }

/-! ### Cart: instance methods -/

/-- The `sameVariant` test inside `addItem`: for a requested variant, an
existing line matches when its stored variant has the same name and value;
for no requested variant, the line must have no stored variant. -/
def variantMatches (vd : Option Variant) (iv : Option Variant) : Bool :=
  match vd with
  | some v =>
      match iv with
      | some w => v.name == w.name && v.value == w.value
      | none => false
  | none => iv.isNone

/-- The `addItem` line-matching predicate: same product and same variant
selection. -/
def matchesLine (pid : Nat) (vd : Option Variant) (it : CartItem) : Bool :=
  it.product == pid && variantMatches vd it.selectedVariant

/-- The new line pushed by `addItem` when no existing line matches: a
snapshot of the given product data, the given quantity and the given
variant selection (`newId` models the database-assigned subdocument `_id`;
`itemTotal` is filled in by the pre-save hook). -/
def newLine (pd : ProductData) (q : Int) (vd : Option Variant) (newId : Nat) :
    CartItem :=
  { id := newId
    product := pd.id
    productName := pd.name
    productImage := pd.image
    productPrice := pd.price
    quantity := q
    selectedVariant := vd
    itemTotal := 0 }

/-- Method `cartSchema.methods.addItem(productData, quantity, variantData)`:
increment the quantity of the first matching line, or append a new line
snapshotting the given product data; then save. -/
def addItem (c : Cart) (pd : ProductData) (q : Int) (vd : Option Variant)
    (newId : Nat) : Cart :=
  if c.items.any (matchesLine pd.id vd) then
    saveCart { c with
      items := updateFirst (matchesLine pd.id vd)
        (fun it => { it with quantity := it.quantity + q }) c.items }
  else
    saveCart { c with items := c.items ++ [newLine pd q vd newId] }

/-- Lookup `this.items.id(itemId)`: first line with the given subdocument id. -/
def findItem (c : Cart) (itemId : Nat) : Option CartItem :=
  c.items.find? (fun it => it.id == itemId)

/-- Method `cartSchema.methods.removeItem(itemId)`: throws NotFound when the line
is absent, otherwise deletes it and saves. -/
def removeItem (c : Cart) (itemId : Nat) : Except CartError Cart :=
  match findItem c itemId with
  | none => .error .notFound
  | some _ =>
      .ok (saveCart { c with
        items := eraseFirst (fun it => it.id == itemId) c.items })

/-- Method `cartSchema.methods.updateItemQuantity(itemId, quantity)`: throws
NotFound when the line is absent; delegates to `removeItem` when the new
quantity is ≤ 0; otherwise sets the quantity and saves. -/
def updateItemQuantity (c : Cart) (itemId : Nat) (q : Int) :
    Except CartError Cart :=
  match findItem c itemId with
  | none => .error .notFound
  | some _ =>
      if q ≤ 0 then removeItem c itemId
      else
        .ok (saveCart { c with
          items := updateFirst (fun it => it.id == itemId)
            (fun it => { it with quantity := q }) c.items })

/-- Method `cartSchema.methods.clearCart()`: empty the line list and save. -/
def clearCart (c : Cart) : Cart :=
  saveCart { c with items := [] }

/-- Method `cartSchema.methods.applyDiscount(discountAmount)`:
`this.discountAmount = Math.min(discountAmount, this.subtotal)`, then save. -/
def applyDiscount (c : Cart) (d : Int) : Cart :=
  saveCart { c with discountAmount := min d c.subtotal }

/-! ### Product store -/

/-- Lookup `Product.findById` over the product collection (ids unique in the
store, so first match). -/
def findProduct (ps : List Product) (pid : Nat) : Option Product :=
  ps.find? (fun p => p.id == pid)

/-- Persist a modification of the product with the given id. -/
def updateProduct (ps : List Product) (pid : Nat) (f : Product → Product) :
    List Product :=
  ps.map (fun p => if p.id == pid then f p else p)

/-- Method `productSchema.methods.reduceStock(quantity)`: decrement stock only when
`stock >= quantity`, otherwise leave the product unchanged (the method
returns `false`, which the checkout controller ignores). -/
def applyReduceStock (p : Product) (q : Int) : Product :=
  if q ≤ p.stock then { p with stock := p.stock - q } else p

/-- The stock-restoration body of the cancel-order controller:
`product.stock += item.quantity`. -/
def restoreStock (p : Product) (q : Int) : Product :=
  { p with stock := p.stock + q }

/-- One iteration of the controllers' per-line stock loops: look the product
up by id; when found, apply `g` to it; when missing, skip the line. -/
def stockStep (g : Product → Int → Product) (acc : List Product)
    (pr : Nat × Int) : List Product :=
  match findProduct acc pr.1 with
  | some _ => updateProduct acc pr.1 (fun p => g p pr.2)
  | none => acc

/-- The controllers' stock loops over a list of (product id, quantity)
pairs. -/
def foldStock (g : Product → Int → Product) (ps : List Product)
    (prs : List (Nat × Int)) : List Product :=
  prs.foldl (stockStep g) ps

/-- The (product id, quantity) pairs of a cart's lines. -/
def cartPairs (items : List CartItem) : List (Nat × Int) :=
  items.map (fun it => (it.product, it.quantity))

/-- The (product id, quantity) pairs of an order's lines. -/
def orderPairs (items : List OrderItem) : List (Nat × Int) :=
  items.map (fun it => (it.product, it.quantity))

/-! ### Checkout workflow (`createOrder` controller) -/

/-- Tax `Math.round(cart.subtotal * 0.18)` on integer subtotals: 18% tax
rounded half-up to the nearest integer currency unit. -/
def taxOf (s : Int) : Int :=
  (18 * s + 50) / 100

/-- The per-line order snapshot built by the checkout controller. -/
def snapshotItem (it : CartItem) : OrderItem :=
  { product := it.product, productName := it.productName,
    productImage := it.productImage, quantity := it.quantity,
    price := effectivePrice it, selectedVariant := it.selectedVariant,
    itemTotal := it.itemTotal }

/-- The order document built by the checkout controller from a cart: every
line snapshotted, totals copied, tax computed, `totalAmount = subtotal −
discountAmount + shippingCost + tax`, initial status `pending` (seeded into
the history by the order pre-save hook). -/
def orderOf (c : Cart) : Order :=
  { items := c.items.map snapshotItem
    subtotal := c.subtotal
    discountAmount := c.discountAmount
    shippingCost := c.shippingCost
    tax := taxOf c.subtotal
    totalAmount := c.subtotal - c.discountAmount + c.shippingCost + taxOf c.subtotal
    orderStatus := .pending
    statusHistory := [.pending] }

/-- The checkout controller `createOrder`: fails (no state change) when the
cart is missing or empty (`!cart || cart.isEmpty`); otherwise persists the
order built by `orderOf`, runs the stock-decrement loop, and clears the
cart.  Returns the created order together with the new cart and
product-store states. -/
def createOrder (c? : Option Cart) (ps : List Product) :
    Option (Order × Cart × List Product) :=
  match c? with
  | none => none
  | some c =>
      if c.items = [] then none
      else
        some (orderOf c, clearCart c, foldStock applyReduceStock ps (cartPairs c.items))

/-! ### Order cancellation -/

/-- The `canCancel` virtual: `['pending', 'confirmed'].includes(orderStatus)`. -/
def canCancel (o : Order) : Bool :=
  o.orderStatus == .pending || o.orderStatus == .confirmed

/-- The cancelled form of an order: status set to `cancelled` and appended
to the history by the pre-save hook. -/
def cancelledOrder (o : Order) : Order :=
  { o with
    orderStatus := .cancelled
    statusHistory := o.statusHistory ++ [.cancelled] }

/-- Method `orderSchema.methods.cancelOrder`: throws InvalidState unless the order
can be cancelled; otherwise sets the status to `cancelled` and saves (the
pre-save hook appends the new status to the history). -/
def cancelOrder (o : Order) : Except OrderError Order :=
  if canCancel o then .ok (cancelledOrder o)
  else .error .invalidState

/-- The cancel-order controller: rejects with InvalidState when
`!order.canCancel`, otherwise runs the `cancelOrder` method and then the
stock-restoration loop over the order's lines. -/
def cancelOrderController (o : Order) (ps : List Product) :
    Except OrderError (Order × List Product) :=
  if canCancel o then
    match cancelOrder o with
    | .error e => .error e
    | .ok o' => .ok (o', foldStock restoreStock ps (orderPairs o.items))
  else .error .invalidState

/-! ### Review aggregation -/

/-- Method `productSchema.methods.updateRating`: aggregate over all reviews whose
`product` matches (`$match: { product: this._id }` — no moderation filter),
write the arithmetic mean (`$avg`, unrounded) and the count; with no
matching reviews write rating 0 and count 0. -/
def updateRating (reviews : List Review) (p : Product) : Product :=
  let rs := reviews.filter (fun r => r.product == p.id)
  if rs = [] then { p with rating := 0, numReviews := 0 }
  else
    { p with
      rating := ((rs.map (fun r => (r.rating : ℚ))).sum) / (rs.length : ℚ)
      numReviews := rs.length }

/-- Round a rational to one decimal place. -/
def roundTo1 (q : ℚ) : ℚ :=
  (round (10 * q) : ℚ) / 10

/-- The recompute-rating contract as the spec words it (for comparison with
`updateRating`): read only the reviews for the product that are both active
and approved, write their mean rounded to one decimal and their count, and
0/0 when none qualify. -/
def recomputeRatingSpec (reviews : List Review) (p : Product) : Product :=
  let rs := reviews.filter (fun r => r.product == p.id && r.isActive && r.isApproved)
  if rs = [] then { p with rating := 0, numReviews := 0 }
  else
    { p with
      rating := roundTo1 (((rs.map (fun r => (r.rating : ℚ))).sum) / (rs.length : ℚ))
      numReviews := rs.length }

/-! ### Cart operation sequences (for the cart invariant) -/

/-- One cart mutation as issued by the cart controller. -/
inductive CartOp where
  | add (pd : ProductData) (q : Int) (vd : Option Variant) (newId : Nat)
  | update (itemId : Nat) (q : Int)
  | remove (itemId : Nat)

/-- The quantity precondition of the cart contract: `addItem` is called
with quantity ≥ 1 (`updateItemQuantity` accepts any quantity, ≤ 0 meaning
removal). -/
def opQtyOK : CartOp → Prop
  | .add _ q _ _ => 1 ≤ q
  | .update _ _ => True
  | .remove _ => True

/-- Run one operation against the persisted cart; a thrown error leaves the
persisted cart unchanged. -/
def applyOp (c : Cart) : CartOp → Cart
  | .add pd q vd newId => addItem c pd q vd newId
  | .update itemId q =>
      match updateItemQuantity c itemId q with
      | .ok c' => c'
      | .error _ => c
  | .remove itemId =>
      match removeItem c itemId with
      | .ok c' => c'
      | .error _ => c

/-- Run a sequence of operations. -/
def applyOps (c : Cart) (ops : List CartOp) : Cart :=
  ops.foldl applyOp c

/-- The derived subtotal of a cart's lines (effective price × quantity,
summed). -/
def derivedSubtotal (c : Cart) : Int :=
  (c.items.map (fun it => effectivePrice it * it.quantity)).sum

/-- The cart invariant of the spec: every line's `itemTotal` is its
effective price times its quantity, every quantity is ≥ 1, and the stored
`subtotal`, `totalQuantity` and `grandTotal` agree with the lines. -/
def CartInv (c : Cart) : Prop :=
  (∀ it ∈ c.items, it.itemTotal = effectivePrice it * it.quantity ∧ 1 ≤ it.quantity)
  ∧ c.subtotal = (c.items.map (fun it => it.itemTotal)).sum
  ∧ c.totalQuantity = (c.items.map (fun it => it.quantity)).sum
  ∧ c.grandTotal = c.subtotal - c.discountAmount + c.shippingCost

/-! ### Basic lemmas about the cart embedding -/

theorem effectivePrice_recomputeItem (it : CartItem) :
    effectivePrice (recomputeItem it) = effectivePrice it := rfl

theorem quantity_recomputeItem (it : CartItem) :
    (recomputeItem it).quantity = it.quantity := rfl

theorem itemTotal_recomputeItem (it : CartItem) :
    (recomputeItem it).itemTotal = effectivePrice it * it.quantity := rfl

theorem saveCart_subtotal (c : Cart) :
    (saveCart c).subtotal = derivedSubtotal c := by
  simp [saveCart, derivedSubtotal, List.map_map, Function.comp_def,
    itemTotal_recomputeItem]

theorem mem_updateFirst {p : α → Bool} {f : α → α} {l : List α} {x : α} :
    x ∈ updateFirst p f l → x ∈ l ∨ ∃ y ∈ l, x = f y := by
  induction l with
  | nil => intro hx; simp [updateFirst] at hx
  | cons a as ih =>
      intro hx
      by_cases hp : p a
      · simp only [updateFirst, if_pos hp, List.mem_cons] at hx
        rcases hx with hx | hx
        · exact Or.inr ⟨a, List.mem_cons_self a as, hx⟩
        · exact Or.inl (List.mem_cons_of_mem a hx)
      · simp only [updateFirst, if_neg hp, List.mem_cons] at hx
        rcases hx with hx | hx
        · exact Or.inl (hx ▸ List.mem_cons_self a as)
        · rcases ih hx with h' | ⟨y, hy, hxy⟩
          · exact Or.inl (List.mem_cons_of_mem a h')
          · exact Or.inr ⟨y, List.mem_cons_of_mem a hy, hxy⟩

theorem mem_eraseFirst {p : α → Bool} {l : List α} {x : α} :
    x ∈ eraseFirst p l → x ∈ l := by
  induction l with
  | nil => intro hx; simp [eraseFirst] at hx
  | cons a as ih =>
      intro hx
      by_cases hp : p a
      · simp only [eraseFirst, if_pos hp] at hx
        exact List.mem_cons_of_mem a hx
      · simp only [eraseFirst, if_neg hp, List.mem_cons] at hx
        rcases hx with hx | hx
        · exact hx ▸ List.mem_cons_self a as
        · exact List.mem_cons_of_mem a (ih hx)

/-- Saving a cart whose lines all have quantity ≥ 1 establishes the full
cart invariant: the pre-save hooks recompute every derived field. -/
theorem saveCart_inv (c : Cart) (h : ∀ it ∈ c.items, 1 ≤ it.quantity) :
    CartInv (saveCart c) := by
  refine ⟨?_, ?_, ?_, ?_⟩
  · intro it hit
    simp only [saveCart, List.mem_map] at hit
    obtain ⟨it0, hit0, rfl⟩ := hit
    exact ⟨rfl, by simpa [quantity_recomputeItem] using h it0 hit0⟩
  · rfl
  · rfl
  · rfl

/-! ### Tax rounding -/

/-- The integer tax computation agrees with rounding 18% of the subtotal to
the nearest integer (`Math.round` rounds half up, as does `round`). -/
theorem taxOf_eq_round (s : Int) :
    taxOf s = round ((18 * s : ℚ) / 100) := by
  rw [round_eq]
  have h : (18 * s : ℚ) / 100 + 1 / 2 = ((18 * s + 50 : ℤ) : ℚ) / ((100 : ℕ) : ℚ) := by
    push_cast
    ring
  rw [h, Rat.floor_intCast_div_natCast]
  norm_num [taxOf]

/-! ### Example documents used by witnesses and counterexamples -/

/-- An empty, freshly created cart. -/
def emptyCartEx : Cart :=
  { items := [], subtotal := 0, totalItems := 0, totalQuantity := 0,
    discountAmount := 0, shippingCost := 0, grandTotal := 0, isActive := true }

/-- A single saved cart line: product 1, unit price 500, quantity 2. -/
def lineEx : CartItem :=
  { id := 1, product := 1, productName := "p", productImage := "i",
    productPrice := 500, quantity := 2, selectedVariant := none,
    itemTotal := 1000 }

/-- The spec's concrete checkout example: subtotal 1000, discount 100,
shipping 50. -/
def cartEx1 : Cart :=
  { items := [lineEx], subtotal := 1000, totalItems := 1, totalQuantity := 2,
    discountAmount := 100, shippingCost := 50, grandTotal := 950,
    isActive := true }

/-- A saved cart with nonzero shipping cost, used against `clearCart`. -/
def cartEx9 : Cart :=
  { items := [lineEx], subtotal := 1000, totalItems := 1, totalQuantity := 2,
    discountAmount := 0, shippingCost := 50, grandTotal := 1050,
    isActive := true }

/-- A saved cart line for product 1 (no variant) with quantity 5. -/
def lineEx5 : CartItem :=
  { id := 0, product := 1, productName := "p", productImage := "i",
    productPrice := 100, quantity := 5, selectedVariant := none,
    itemTotal := 500 }

/-- A saved cart already holding `lineEx5`. -/
def cartEx5 : Cart :=
  { items := [lineEx5], subtotal := 500, totalItems := 1, totalQuantity := 5,
    discountAmount := 0, shippingCost := 0, grandTotal := 500, isActive := true }

/-- The controller-side snapshot of product 1 handed to `addItem`. -/
def pdEx : ProductData :=
  { id := 1, name := "p", image := "i", price := 100 }

/-! ### C1 — checkout tax and total -/

/-- C1: checkout on an existing non-empty cart produces an order whose tax
is 18% of the cart subtotal rounded to the nearest integer currency unit
and whose total is subtotal − discount + shipping + tax. -/
theorem checkout_tax_and_total (c : Cart) (ps : List Product)
    (h : c.items ≠ []) :
    ∃ o c' ps', createOrder (some c) ps = some (o, c', ps')
      ∧ o.tax = round ((18 * c.subtotal : ℚ) / 100)
      ∧ o.totalAmount = c.subtotal - c.discountAmount + c.shippingCost + o.tax := by
  have hco : createOrder (some c) ps
      = some (orderOf c, clearCart c, foldStock applyReduceStock ps (cartPairs c.items)) := by
    simp only [createOrder]
    rw [if_neg h]
  exact ⟨orderOf c, clearCart c, foldStock applyReduceStock ps (cartPairs c.items),
    hco, taxOf_eq_round c.subtotal, rfl⟩

/-- Witness for C1 at the spec's concrete example: subtotal 1000, discount
100, shipping 50 give tax 180 and total 1130. -/
theorem checkout_tax_and_total_witness :
    (cartEx1.items ≠ [] ∧
      ∃ o c' ps', createOrder (some cartEx1) [] = some (o, c', ps')
        ∧ o.tax = round ((18 * cartEx1.subtotal : ℚ) / 100)
        ∧ o.totalAmount = cartEx1.subtotal - cartEx1.discountAmount
            + cartEx1.shippingCost + o.tax)
    ∧ (createOrder (some cartEx1) []).map (fun r => r.1.totalAmount) = some 1130 :=
  ⟨⟨by decide, checkout_tax_and_total cartEx1 [] (by decide)⟩, by decide⟩

/-! ### C8 — checkout with a missing or empty cart -/

/-- C8: checkout fails, creating no order and touching no state, when the
user's cart is missing or empty. -/
theorem checkout_empty_cart_fails (c : Cart) (ps : List Product) :
    createOrder none ps = none ∧ (c.items = [] → createOrder (some c) ps = none) := by
  refine ⟨rfl, fun h => ?_⟩
  simp [createOrder, h]

/-- Witness for C8 at a concrete missing cart and a concrete empty cart. -/
theorem checkout_empty_cart_fails_witness :
    createOrder none [] = none ∧ createOrder (some emptyCartEx) [] = none := by
  have h := checkout_empty_cart_fails emptyCartEx []
  exact ⟨h.1, h.2 rfl⟩

/-! ### C9 — clearCart -/

/-- C9 counterexample: on a cart with shipping cost 50, `clearCart` leaves
`grandTotal = 50`, not 0, so the claim that clearing resets all derived
totals (including `grandTotal`) to zero is false. -/
theorem clearCart_grandTotal_cex :
    (clearCart cartEx9).grandTotal = 50 ∧ ((50 : Int) = 0 → False) := by
  decide

/-- C9 amended: `clearCart` empties the lines, resets `subtotal` and
`totalQuantity` to zero, marks the cart inactive, and sets
`grandTotal = shippingCost − discountAmount` (which is zero only when those
two fields cancel). -/
theorem clearCart_amended (c : Cart) :
    (clearCart c).items = []
    ∧ (clearCart c).subtotal = 0
    ∧ (clearCart c).totalQuantity = 0
    ∧ (clearCart c).isActive = false
    ∧ (clearCart c).grandTotal = c.shippingCost - c.discountAmount := by
  refine ⟨rfl, rfl, rfl, rfl, ?_⟩
  show 0 - c.discountAmount + c.shippingCost = c.shippingCost - c.discountAmount
  omega

/-! ### C10 — applyDiscount -/

/-- C10: `applyDiscount d` stores `min d subtotal` as the discount, so the
discount never exceeds the subtotal and the recomputed grand total is at
least the shipping cost (hence non-negative for non-negative shipping). -/
theorem applyDiscount_caps_discount (c : Cart) (d : Int)
    (h : c.subtotal = derivedSubtotal c) :
    (applyDiscount c d).discountAmount = min d c.subtotal
    ∧ (applyDiscount c d).discountAmount ≤ (applyDiscount c d).subtotal
    ∧ (applyDiscount c d).grandTotal
        = (applyDiscount c d).subtotal - (applyDiscount c d).discountAmount
          + (applyDiscount c d).shippingCost
    ∧ (applyDiscount c d).shippingCost ≤ (applyDiscount c d).grandTotal
    ∧ (0 ≤ (applyDiscount c d).shippingCost → 0 ≤ (applyDiscount c d).grandTotal) := by
  have hsub : (applyDiscount c d).subtotal = c.subtotal := by
    rw [show applyDiscount c d = saveCart { c with discountAmount := min d c.subtotal } from rfl,
      saveCart_subtotal]
    simpa [derivedSubtotal] using h.symm
  have hdisc : (applyDiscount c d).discountAmount = min d c.subtotal := rfl
  have hship : (applyDiscount c d).shippingCost = c.shippingCost := rfl
  have hgt : (applyDiscount c d).grandTotal
      = (applyDiscount c d).subtotal - min d c.subtotal + c.shippingCost := rfl
  have hmin : min d c.subtotal ≤ c.subtotal := min_le_right d c.subtotal
  refine ⟨hdisc, ?_, ?_, ?_, ?_⟩
  · rw [hdisc, hsub]; exact hmin
  · rw [hgt, hdisc, hship]
  · rw [hgt, hsub, hship]; omega
  · rw [hgt, hsub, hship]; omega

/-- Witness for C10 on the saved example cart with discount request 9999:
the stored discount is capped at the subtotal 1000. -/
theorem applyDiscount_caps_discount_witness :
    cartEx1.subtotal = derivedSubtotal cartEx1
    ∧ (applyDiscount cartEx1 9999).discountAmount = min 9999 cartEx1.subtotal :=
  ⟨by decide, (applyDiscount_caps_discount cartEx1 9999 (by decide)).1⟩

/-! ### C7 — NotFound errors on missing cart lines -/

/-- C7: `removeItem` and `updateItemQuantity` on an id that names no line
of the cart fail with NotFound and leave the persisted cart unchanged, and
`updateItemQuantity` with a non-positive quantity behaves exactly as
`removeItem` of the same line. -/
theorem cart_notFound_errors (c : Cart) (itemId : Nat) (q : Int)
    (h : ∀ it ∈ c.items, it.id ≠ itemId) :
    removeItem c itemId = .error .notFound
    ∧ updateItemQuantity c itemId q = .error .notFound
    ∧ applyOp c (.remove itemId) = c
    ∧ applyOp c (.update itemId q) = c
    ∧ (∀ itemId2 q2, q2 ≤ 0 → updateItemQuantity c itemId2 q2 = removeItem c itemId2) := by
  have hf : findItem c itemId = none := by
    apply List.find?_eq_none.mpr
    intro it hit
    simpa using h it hit
  refine ⟨?_, ?_, ?_, ?_, ?_⟩
  · simp [removeItem, hf]
  · simp [updateItemQuantity, hf]
  · simp [applyOp, removeItem, hf]
  · simp [applyOp, updateItemQuantity, hf]
  · intro itemId2 q2 hq
    cases hfi : findItem c itemId2 with
    | none => simp [updateItemQuantity, removeItem, hfi]
    | some it => simp [updateItemQuantity, hfi, if_pos hq]

/-- Witness for C7: id 2 names no line of the example cart (its only line
has id 1). -/
theorem cart_notFound_errors_witness :
    (∀ it ∈ cartEx1.items, it.id ≠ 2)
    ∧ removeItem cartEx1 2 = .error .notFound
    ∧ updateItemQuantity cartEx1 2 3 = .error .notFound :=
  ⟨by decide,
   (cart_notFound_errors cartEx1 2 3 (by decide)).1,
   (cart_notFound_errors cartEx1 2 3 (by decide)).2.1⟩

/-! ### C4 — review aggregation -/

/-- An example product with no reviews aggregated yet. -/
def productEx : Product :=
  { id := 1, price := 100, stock := 10, isActive := true, rating := 0,
    numReviews := 0 }

/-- A deactivated (soft-deleted) five-star review of product 1. -/
def inactiveReviewEx : Review :=
  { product := 1, rating := 5, isActive := false, isApproved := true }

/-- An active, approved four-star review of product 1. -/
def activeReviewEx : Review :=
  { product := 1, rating := 4, isActive := true, isApproved := true }

/-- C4 counterexample: `updateRating` aggregates over every review of the
product, with no `isActive`/`isApproved` filter.  With a single inactive
review the claim requires rating 0 and count 0 (zero qualifying reviews),
but the code writes rating 5 and count 1; the spec-worded recompute
disagrees with the code at this input. -/
theorem updateRating_ignores_flags_cex :
    (updateRating [inactiveReviewEx] productEx).rating = 5
    ∧ (updateRating [inactiveReviewEx] productEx).numReviews = 1
    ∧ (recomputeRatingSpec [inactiveReviewEx] productEx).rating = 0
    ∧ (recomputeRatingSpec [inactiveReviewEx] productEx).numReviews = 0
    ∧ updateRating [inactiveReviewEx] productEx
        ≠ recomputeRatingSpec [inactiveReviewEx] productEx := by
  have h1 : (updateRating [inactiveReviewEx] productEx).rating
      = (((5 : ℤ) : ℚ) + 0) / ((1 : ℕ) : ℚ) := rfl
  refine ⟨?_, rfl, rfl, rfl, ?_⟩
  · rw [h1]
    norm_num
  · intro hcontra
    have h5 : (updateRating [inactiveReviewEx] productEx).numReviews = 1 := rfl
    have h0 : (recomputeRatingSpec [inactiveReviewEx] productEx).numReviews = 0 := rfl
    rw [hcontra, h0] at h5
    exact Nat.zero_ne_one h5

/-- C4 amended: `updateRating` reads every review of the product
(regardless of the active/approved moderation flags) and writes their
unrounded arithmetic mean and their count onto the product; with no
reviews at all it writes rating 0 and count 0.  (It is still triggered
after review save and remove by the schema post hooks.) -/
theorem updateRating_amended (reviews : List Review) (p : Product) :
    (reviews.filter (fun r => r.product == p.id) = [] →
      updateRating reviews p = { p with rating := 0, numReviews := 0 })
    ∧ (∀ rs, rs = reviews.filter (fun r => r.product == p.id) → rs ≠ [] →
        (updateRating reviews p).rating
            = ((rs.map (fun r => (r.rating : ℚ))).sum) / (rs.length : ℚ)
        ∧ (updateRating reviews p).numReviews = rs.length) := by
  constructor
  · intro h
    simp only [updateRating, h, if_pos]
  · intro rs hrs hne
    rw [hrs] at hne ⊢
    constructor
    · simp only [updateRating, if_neg hne]
    · simp only [updateRating, if_neg hne]

/-- Witness for the amended C4: one active approved four-star review of
product 1 yields rating 4 and count 1. -/
theorem updateRating_amended_witness :
    (updateRating [activeReviewEx] productEx).rating = 4
    ∧ (updateRating [activeReviewEx] productEx).numReviews = 1 := by
  have h := (updateRating_amended [activeReviewEx] productEx).2
    (List.filter (fun r => r.product == productEx.id) [activeReviewEx]) rfl
    (by decide)
  have hfilter : List.filter (fun r => r.product == productEx.id) [activeReviewEx]
      = [activeReviewEx] := rfl
  refine ⟨?_, ?_⟩
  · rw [h.1, hfilter]
    norm_num [activeReviewEx]
  · rw [h.2, hfilter]
    rfl

/-! ### C5 — addItem line merging -/

theorem variantMatches_refl (vd : Option Variant) :
    variantMatches vd vd = true := by
  cases vd with
  | none => rfl
  | some v => simp [variantMatches]

theorem matchesLine_newLine (pd : ProductData) (q : Int) (vd : Option Variant)
    (n : Nat) : matchesLine pd.id vd (newLine pd q vd n) = true := by
  simp [matchesLine, newLine, variantMatches_refl]

theorem matchesLine_recomputeItem (pid : Nat) (vd : Option Variant)
    (it : CartItem) :
    matchesLine pid vd (recomputeItem it) = matchesLine pid vd it := rfl

/-- When no line matches, `addItem` appends the snapshot line and saves. -/
theorem addItem_no_match (c : Cart) (pd : ProductData) (q : Int)
    (vd : Option Variant) (n : Nat)
    (h : ∀ it ∈ c.items, matchesLine pd.id vd it = false) :
    addItem c pd q vd n = saveCart { c with items := c.items ++ [newLine pd q vd n] } := by
  unfold addItem
  rw [if_neg]
  intro hany
  obtain ⟨it, hit, hm⟩ := List.any_eq_true.mp hany
  rw [h it hit] at hm
  exact Bool.false_ne_true hm

/-- When some line matches, `addItem` increments the first matching line's
quantity and saves. -/
theorem addItem_match (c : Cart) (pd : ProductData) (q : Int)
    (vd : Option Variant) (n : Nat)
    (h : c.items.any (matchesLine pd.id vd) = true) :
    addItem c pd q vd n = saveCart { c with
      items := updateFirst (matchesLine pd.id vd)
        (fun it => { it with quantity := it.quantity + q }) c.items } := by
  unfold addItem
  rw [if_pos h]

theorem updateFirst_append_not {p : α → Bool} {f : α → α} (l1 l2 : List α)
    (h : ∀ x ∈ l1, p x = false) :
    updateFirst p f (l1 ++ l2) = l1 ++ updateFirst p f l2 := by
  induction l1 with
  | nil => rfl
  | cons a as ih =>
      have ha : p a = false := h a (List.mem_cons_self a as)
      simp only [List.cons_append, updateFirst, ha, Bool.false_eq_true, if_false,
        List.cons.injEq, true_and]
      exact ih (fun x hx => h x (List.mem_cons_of_mem a hx))

/-- C5 counterexample: on a cart that already holds a line for product 1
with quantity 5, adding that product twice more with quantities 2 and 3
leaves a single line of quantity 10, not q1 + q2 = 5, so the claim is false
for carts that already contain a matching line. -/
theorem addItem_merge_cex :
    ((addItem (addItem cartEx5 pdEx 2 none 10) pdEx 3 none 11).items.filter
        (matchesLine 1 none)).map (fun it => it.quantity) = [10]
    ∧ (((addItem (addItem cartEx5 pdEx 2 none 10) pdEx 3 none 11).items.filter
        (matchesLine 1 none)).map (fun it => it.quantity) = [2 + 3] → False) := by
  decide

/-- C5 amended: starting from a cart with no line matching the given
product and variant selection, two `addItem` calls for that same product
and variant with quantities q1 and q2 leave exactly one matching line,
with quantity q1 + q2; and a single `addItem` call in that situation
appends one new line carrying the given quantity and the price snapshot
passed at that call. -/
theorem addItem_merge_amended (c : Cart) (pd : ProductData)
    (vd : Option Variant) (q1 q2 : Int) (n1 n2 : Nat)
    (h : ∀ it ∈ c.items, matchesLine pd.id vd it = false) :
    ((addItem (addItem c pd q1 vd n1) pd q2 vd n2).items.filter
        (matchesLine pd.id vd)).map (fun it => it.quantity) = [q1 + q2]
    ∧ (addItem c pd q1 vd n1).items.map
          (fun it => (it.product, it.selectedVariant, it.quantity, it.productPrice))
        = c.items.map
            (fun it => (it.product, it.selectedVariant, it.quantity, it.productPrice))
          ++ [(pd.id, vd, q1, pd.price)] := by
  have hadd1 := addItem_no_match c pd q1 vd n1 h
  have hitems1 : (addItem c pd q1 vd n1).items
      = c.items.map recomputeItem ++ [recomputeItem (newLine pd q1 vd n1)] := by
    rw [hadd1]
    simp [saveCart]
  have hpre : ∀ x ∈ c.items.map recomputeItem, matchesLine pd.id vd x = false := by
    intro x hx
    obtain ⟨y, hy, rfl⟩ := List.mem_map.mp hx
    rw [matchesLine_recomputeItem]
    exact h y hy
  have hlast : matchesLine pd.id vd (recomputeItem (newLine pd q1 vd n1)) = true := by
    rw [matchesLine_recomputeItem]
    exact matchesLine_newLine pd q1 vd n1
  constructor
  · have hany : (addItem c pd q1 vd n1).items.any (matchesLine pd.id vd) = true := by
      rw [hitems1]
      exact List.any_eq_true.mpr
        ⟨recomputeItem (newLine pd q1 vd n1),
          List.mem_append_right _ (List.mem_singleton_self _), hlast⟩
    have hadd2 := addItem_match (addItem c pd q1 vd n1) pd q2 vd n2 hany
    have hupd : updateFirst (matchesLine pd.id vd)
        (fun it => { it with quantity := it.quantity + q2 })
        (addItem c pd q1 vd n1).items
        = c.items.map recomputeItem
          ++ [{ recomputeItem (newLine pd q1 vd n1) with
                quantity := (recomputeItem (newLine pd q1 vd n1)).quantity + q2 }] := by
      rw [hitems1, updateFirst_append_not _ _ hpre]
      simp only [updateFirst, hlast, if_pos]
    have hitems2 : (addItem (addItem c pd q1 vd n1) pd q2 vd n2).items
        = (c.items.map recomputeItem).map recomputeItem
          ++ [recomputeItem { recomputeItem (newLine pd q1 vd n1) with
                quantity := (recomputeItem (newLine pd q1 vd n1)).quantity + q2 }] := by
      rw [hadd2]
      simp only [saveCart, hupd, List.map_append, List.map_cons, List.map_nil]
    rw [hitems2, List.filter_append]
    have hf1 : ((c.items.map recomputeItem).map recomputeItem).filter
        (matchesLine pd.id vd) = [] := by
      apply List.filter_eq_nil_iff.mpr
      intro x hx
      obtain ⟨y, hy, rfl⟩ := List.mem_map.mp hx
      simp only [matchesLine_recomputeItem]
      exact fun hcontra => Bool.false_ne_true ((hpre y hy) ▸ hcontra)
    have hf2 : matchesLine pd.id vd
        (recomputeItem { recomputeItem (newLine pd q1 vd n1) with
          quantity := (recomputeItem (newLine pd q1 vd n1)).quantity + q2 }) = true := by
      rw [matchesLine_recomputeItem]
      exact hlast
    simp only [hf1, List.nil_append, List.filter_cons, hf2, if_pos,
      List.filter_nil, List.map_cons, List.map_nil]
    show [q1 + q2] = [q1 + q2]
    rfl
  · rw [hitems1, List.map_append, List.map_map]
    rfl

/-- Witness for the amended C5 on an empty cart: two adds of product 1
with quantities 2 and 3 leave one line of quantity 5. -/
theorem addItem_merge_amended_witness :
    (∀ it ∈ emptyCartEx.items, matchesLine pdEx.id none it = false)
    ∧ ((addItem (addItem emptyCartEx pdEx 2 none 10) pdEx 3 none 11).items.filter
        (matchesLine pdEx.id none)).map (fun it => it.quantity) = [2 + 3] :=
  ⟨by decide, (addItem_merge_amended emptyCartEx pdEx none 2 3 10 11 (by decide)).1⟩

/-! ### C3 — the cart invariant across operation sequences -/

/-- Unfolding `addItem` with no matching line, phrased on the boolean `any` test. -/
theorem addItem_any_false (c : Cart) (pd : ProductData) (q : Int)
    (vd : Option Variant) (n : Nat)
    (h : c.items.any (matchesLine pd.id vd) = false) :
    addItem c pd q vd n
      = saveCart { c with items := c.items ++ [newLine pd q vd n] } := by
  unfold addItem
  rw [if_neg]
  rw [h]
  exact Bool.false_ne_true

/-- Every operation run against a cart whose lines all have quantity ≥ 1,
with `addItem` quantities ≥ 1, preserves the full cart invariant (a failed
operation leaves the cart, and hence its invariant, untouched). -/
theorem applyOp_inv (c : Cart) (op : CartOp) (hc : CartInv c)
    (hop : opQtyOK op) : CartInv (applyOp c op) := by
  have hq : ∀ it ∈ c.items, 1 ≤ it.quantity := fun it hit => (hc.1 it hit).2
  cases op with
  | add pd q vd n =>
      have hq1 : 1 ≤ q := hop
      show CartInv (addItem c pd q vd n)
      cases hb : c.items.any (matchesLine pd.id vd) with
      | true =>
          rw [addItem_match c pd q vd n hb]
          apply saveCart_inv
          intro it hit
          rcases mem_updateFirst hit with h' | ⟨y, hy, rfl⟩
          · exact hq it h'
          · have := hq y hy
            show 1 ≤ y.quantity + q
            omega
      | false =>
          rw [addItem_any_false c pd q vd n hb]
          apply saveCart_inv
          intro it hit
          rcases List.mem_append.mp hit with h' | h'
          · exact hq it h'
          · rw [List.mem_singleton.mp h']
            exact hq1
  | update itemId q =>
      cases hfi : findItem c itemId with
      | none =>
          simp only [applyOp, updateItemQuantity, hfi]
          exact hc
      | some it0 =>
          by_cases hq0 : q ≤ 0
          · simp only [applyOp, updateItemQuantity, hfi, if_pos hq0, removeItem]
            apply saveCart_inv
            intro it hit
            exact hq it (mem_eraseFirst hit)
          · simp only [applyOp, updateItemQuantity, hfi, if_neg hq0]
            apply saveCart_inv
            intro it hit
            rcases mem_updateFirst hit with h' | ⟨y, hy, rfl⟩
            · exact hq it h'
            · show 1 ≤ q
              omega
  | remove itemId =>
      cases hfi : findItem c itemId with
      | none =>
          simp only [applyOp, removeItem, hfi]
          exact hc
      | some it0 =>
          simp only [applyOp, removeItem, hfi]
          apply saveCart_inv
          intro it hit
          exact hq it (mem_eraseFirst hit)

theorem applyOps_inv : ∀ (ops : List CartOp) (c : Cart), CartInv c →
    (∀ op ∈ ops, opQtyOK op) → CartInv (applyOps c ops) := by
  intro ops
  induction ops with
  | nil => intro c hc _; exact hc
  | cons op rest ih =>
      intro c hc hops
      exact ih (applyOp c op)
        (applyOp_inv c op hc (hops op (List.mem_cons_self op rest)))
        (fun o ho => hops o (List.mem_cons_of_mem op ho))

/-- C3: starting from any persisted cart satisfying the invariant, after
each operation of any add/update/remove sequence (adds with quantity ≥ 1)
the persisted cart satisfies: each line's itemTotal = effective price ×
quantity, subtotal = Σ itemTotal, totalQuantity = Σ quantity, grandTotal =
subtotal − discountAmount + shippingCost, and every quantity ≥ 1. -/
theorem cart_ops_invariant (c : Cart) (ops : List CartOp) (hc : CartInv c)
    (hops : ∀ op ∈ ops, opQtyOK op) (i : Nat) :
    CartInv (applyOps c (ops.take i)) :=
  applyOps_inv (ops.take i) c hc
    (fun op hop => hops op (List.take_subset i ops hop))

/-- Witness for C3: the saved example cart, one add of quantity 1, first
prefix. -/
theorem cart_ops_invariant_witness :
    CartInv cartEx1
    ∧ (∀ op ∈ [CartOp.add pdEx 1 none 7], opQtyOK op)
    ∧ CartInv (applyOps cartEx1 ([CartOp.add pdEx 1 none 7].take 1)) := by
  have hc : CartInv cartEx1 := ⟨by decide, rfl, rfl, rfl⟩
  have hops : ∀ op ∈ [CartOp.add pdEx 1 none 7], opQtyOK op := by
    intro op hop
    rw [List.mem_singleton.mp hop]
    show (1 : Int) ≤ 1
    omega
  exact ⟨hc, hops, cart_ops_invariant cartEx1 _ hc hops 1⟩

/-! ### Lemmas about the stock loops -/

theorem applyReduceStock_id (p : Product) (q : Int) :
    (applyReduceStock p q).id = p.id := by
  unfold applyReduceStock
  split <;> rfl

theorem restoreStock_id (p : Product) (q : Int) :
    (restoreStock p q).id = p.id := rfl

theorem findProduct_updateProduct_self (ps : List Product) (pid : Nat)
    (f : Product → Product) (hf : ∀ p, (f p).id = p.id) :
    findProduct (updateProduct ps pid f) pid = (findProduct ps pid).map f := by
  induction ps with
  | nil => rfl
  | cons p rest ih =>
      by_cases hp : p.id = pid
      · have hb : (p.id == pid) = true := beq_iff_eq.mpr hp
        have hb' : ((f p).id == pid) = true := beq_iff_eq.mpr ((hf p).trans hp)
        simp [findProduct, updateProduct, List.find?, hb, hb']
      · have hb : (p.id == pid) = false := beq_eq_false_iff_ne.mpr hp
        simp only [findProduct, updateProduct, List.map_cons, List.find?, hb,
          Bool.false_eq_true, if_false]
        exact ih

theorem findProduct_updateProduct_ne (ps : List Product) (pid pid' : Nat)
    (f : Product → Product) (hf : ∀ p, (f p).id = p.id) (h : pid' ≠ pid) :
    findProduct (updateProduct ps pid f) pid' = findProduct ps pid' := by
  induction ps with
  | nil => rfl
  | cons p rest ih =>
      by_cases hp : p.id = pid
      · have hb : (p.id == pid) = true := beq_iff_eq.mpr hp
        have hb1 : ((f p).id == pid') = false :=
          beq_eq_false_iff_ne.mpr (fun hcontra => h (((hf p).symm.trans hcontra) ▸ hp))
        have hb2 : (p.id == pid') = false :=
          beq_eq_false_iff_ne.mpr (fun hcontra => h (hcontra ▸ hp))
        simp only [findProduct, updateProduct, List.map_cons, hb, if_true,
          List.find?, hb1, hb2]
        exact ih
      · have hb : (p.id == pid) = false := beq_eq_false_iff_ne.mpr hp
        simp only [findProduct, updateProduct, List.map_cons, hb,
          Bool.false_eq_true, if_false, List.find?]
        cases hb2 : (p.id == pid') with
        | true => rfl
        | false => exact ih

theorem stockStep_find_self (g : Product → Int → Product)
    (hg : ∀ p q, (g p q).id = p.id) (ps : List Product) (pr : Nat × Int) :
    findProduct (stockStep g ps pr) pr.1
      = (findProduct ps pr.1).map (fun p => g p pr.2) := by
  unfold stockStep
  cases hf : findProduct ps pr.1 with
  | none => simp [hf]
  | some p =>
      show findProduct (updateProduct ps pr.1 (fun p' => g p' pr.2)) pr.1
        = Option.map (fun p' => g p' pr.2) (some p)
      rw [findProduct_updateProduct_self ps pr.1 _ (fun p' => hg p' pr.2), hf]

theorem stockStep_find_ne (g : Product → Int → Product)
    (hg : ∀ p q, (g p q).id = p.id) (ps : List Product) (pr : Nat × Int)
    (pid : Nat) (h : pid ≠ pr.1) :
    findProduct (stockStep g ps pr) pid = findProduct ps pid := by
  unfold stockStep
  cases hf : findProduct ps pr.1 with
  | none => rfl
  | some p => exact findProduct_updateProduct_ne ps pr.1 pid _ (fun p' => hg p' pr.2) h

theorem foldStock_find_notmem (g : Product → Int → Product)
    (hg : ∀ p q, (g p q).id = p.id) :
    ∀ (prs : List (Nat × Int)) (ps : List Product) (pid : Nat),
      pid ∉ prs.map Prod.fst →
      findProduct (foldStock g ps prs) pid = findProduct ps pid := by
  intro prs
  induction prs with
  | nil => intro ps pid _; rfl
  | cons pr rest ih =>
      intro ps pid hpid
      have h1 : pid ∉ rest.map Prod.fst :=
        fun hmem => hpid (List.mem_cons_of_mem _ hmem)
      have h2 : pid ≠ pr.1 := by
        intro hcontra
        exact hpid (hcontra ▸ List.mem_cons_self pr.1 (rest.map Prod.fst) :
          pid ∈ pr.1 :: rest.map Prod.fst)
      calc findProduct (foldStock g (stockStep g ps pr) rest) pid
          = findProduct (stockStep g ps pr) pid := ih (stockStep g ps pr) pid h1
        _ = findProduct ps pid := stockStep_find_ne g hg ps pr pid h2

/-- The central stock-loop lemma: when the processed (product id, quantity)
pairs have pairwise distinct ids, the loop leaves each listed product's
store entry equal to `g` applied to its old entry (and a missing entry
stays missing — the line is skipped). -/
theorem foldStock_find (g : Product → Int → Product)
    (hg : ∀ p q, (g p q).id = p.id) :
    ∀ (prs : List (Nat × Int)) (ps : List Product),
      (prs.map Prod.fst).Nodup →
      ∀ pr ∈ prs,
        findProduct (foldStock g ps prs) pr.1
          = (findProduct ps pr.1).map (fun p => g p pr.2) := by
  intro prs
  induction prs with
  | nil => intro ps _ pr hpr; cases hpr
  | cons pr0 rest ih =>
      intro ps hnd pr hpr
      have hnd' : (rest.map Prod.fst).Nodup := by
        rw [List.map_cons] at hnd
        exact (List.nodup_cons.mp hnd).2
      have hnot : pr0.1 ∉ rest.map Prod.fst := by
        rw [List.map_cons] at hnd
        exact (List.nodup_cons.mp hnd).1
      rcases List.mem_cons.mp hpr with rfl | hmem
      · calc findProduct (foldStock g (stockStep g ps pr) rest) pr.1
            = findProduct (stockStep g ps pr) pr.1 :=
              foldStock_find_notmem g hg rest (stockStep g ps pr) pr.1 hnot
          _ = (findProduct ps pr.1).map (fun p => g p pr.2) :=
              stockStep_find_self g hg ps pr
      · have hne : pr.1 ≠ pr0.1 := by
          intro hcontra
          exact hnot (hcontra ▸ List.mem_map.mpr ⟨pr, hmem, rfl⟩)
        calc findProduct (foldStock g (stockStep g ps pr0) rest) pr.1
            = (findProduct (stockStep g ps pr0) pr.1).map (fun p => g p pr.2) :=
              ih (stockStep g ps pr0) hnd' pr hmem
          _ = (findProduct ps pr.1).map (fun p => g p pr.2) := by
              rw [stockStep_find_ne g hg ps pr0 pr.1 hne]

/-! ### C2 — checkout stock decrement and cart clearing -/

/-- C2: checkout on a non-empty cart whose lines reference pairwise
distinct, existing, active products with sufficient stock succeeds; the
cart ends empty and each referenced product's stock is decremented by
exactly that line's quantity.  Independently of the product store's
contents (in particular when referenced products cannot be found at the
decrement step, which skips those lines), the order is still created. -/
theorem checkout_stock_and_clear (c : Cart) (ps : List Product)
    (hne : c.items ≠ [])
    (hnd : (c.items.map (fun it => it.product)).Nodup)
    (hex : ∀ it ∈ c.items, ∃ p, findProduct ps it.product = some p
      ∧ p.isActive = true ∧ it.quantity ≤ p.stock) :
    ∃ o c' ps', createOrder (some c) ps = some (o, c', ps')
      ∧ c'.items = []
      ∧ (∀ it ∈ c.items, ∀ p, findProduct ps it.product = some p →
          findProduct ps' it.product = some { p with stock := p.stock - it.quantity })
      ∧ (∀ qs, ∃ o2 c2 qs', createOrder (some c) qs = some (o2, c2, qs')) := by
  have hco : createOrder (some c) ps
      = some (orderOf c, clearCart c, foldStock applyReduceStock ps (cartPairs c.items)) := by
    simp only [createOrder]
    rw [if_neg hne]
  have hndp : ((cartPairs c.items).map Prod.fst).Nodup := by
    simpa [cartPairs, List.map_map, Function.comp_def] using hnd
  refine ⟨_, _, _, hco, rfl, ?_, ?_⟩
  · intro it hit p hp
    have hpair : (it.product, it.quantity) ∈ cartPairs c.items :=
      List.mem_map.mpr ⟨it, hit, rfl⟩
    have hfind := foldStock_find applyReduceStock applyReduceStock_id
      (cartPairs c.items) ps hndp (it.product, it.quantity) hpair
    obtain ⟨p', hp', _, hstock⟩ := hex it hit
    have hpp : p' = p := by
      rw [hp] at hp'
      exact (Option.some_inj.mp hp').symm
    subst hpp
    rw [hfind, hp]
    show some (applyReduceStock p' it.quantity) = _
    rw [applyReduceStock, if_pos hstock]
  · intro qs
    exact ⟨orderOf c, clearCart c, foldStock applyReduceStock qs (cartPairs c.items),
      by simp only [createOrder]; rw [if_neg hne]⟩

/-- Witness for C2: the example cart (one line, product 1, quantity 2)
checked out against a store holding product 1 with stock 10. -/
theorem checkout_stock_and_clear_witness :
    ∃ o c' ps', createOrder (some cartEx1) [productEx] = some (o, c', ps')
      ∧ c'.items = []
      ∧ (∀ it ∈ cartEx1.items, ∀ p, findProduct [productEx] it.product = some p →
          findProduct ps' it.product = some { p with stock := p.stock - it.quantity })
      ∧ (∀ qs, ∃ o2 c2 qs', createOrder (some cartEx1) qs = some (o2, c2, qs')) :=
  checkout_stock_and_clear cartEx1 [productEx] (by decide) (by decide)
    (by
      intro it hit
      rw [List.mem_singleton.mp hit]
      exact ⟨productEx, rfl, rfl, by decide⟩)

/-! ### C6 — order cancellation -/

/-- An order line for product 1 with quantity 2. -/
def orderItemEx : OrderItem :=
  { product := 1, productName := "p", productImage := "i", quantity := 2,
    price := 500, selectedVariant := none, itemTotal := 1000 }

/-- A pending order holding `orderItemEx`. -/
def orderEx : Order :=
  { items := [orderItemEx], subtotal := 1000, discountAmount := 100,
    shippingCost := 50, tax := 180, totalAmount := 1130,
    orderStatus := .pending, statusHistory := [.pending] }

/-- C6: cancelling an order succeeds exactly when its status is pending or
confirmed; from any other status (including already-cancelled) it fails
with InvalidState, creating no new order state; on success the order's
status becomes cancelled and, for lines referencing pairwise distinct
products, each line's quantity is added back to the referenced product's
stock (a missing product stays missing). -/
theorem cancelOrder_iff (o : Order) (ps : List Product)
    (hnd : (o.items.map (fun it => it.product)).Nodup) :
    ((∃ r, cancelOrderController o ps = .ok r)
        ↔ (o.orderStatus = .pending ∨ o.orderStatus = .confirmed))
    ∧ ((o.orderStatus ≠ .pending ∧ o.orderStatus ≠ .confirmed) →
        cancelOrderController o ps = .error .invalidState)
    ∧ (∀ o' ps', cancelOrderController o ps = .ok (o', ps') →
        o'.orderStatus = .cancelled
        ∧ ∀ it ∈ o.items, findProduct ps' it.product
            = (findProduct ps it.product).map
                (fun p => { p with stock := p.stock + it.quantity })) := by
  have hcan : canCancel o = true ↔ (o.orderStatus = .pending ∨ o.orderStatus = .confirmed) := by
    simp [canCancel]
  by_cases hb : canCancel o = true
  · have hok : cancelOrderController o ps
        = .ok (cancelledOrder o, foldStock restoreStock ps (orderPairs o.items)) := by
      simp only [cancelOrderController, cancelOrder, hb, if_pos]
    refine ⟨?_, ?_, ?_⟩
    · exact ⟨fun _ => hcan.mp hb, fun _ => ⟨_, hok⟩⟩
    · intro ⟨h1, h2⟩
      rcases hcan.mp hb with h | h
      · exact absurd h h1
      · exact absurd h h2
    · intro o' ps' heq
      rw [hok] at heq
      have hpq : (cancelledOrder o, foldStock restoreStock ps (orderPairs o.items))
          = (o', ps') := Except.ok.inj heq
      rw [Prod.mk.injEq] at hpq
      obtain ⟨h1, h2⟩ := hpq
      subst h1
      subst h2
      refine ⟨rfl, ?_⟩
      intro it hit
      have hndp : ((orderPairs o.items).map Prod.fst).Nodup := by
        simpa [orderPairs, List.map_map, Function.comp_def] using hnd
      exact foldStock_find restoreStock restoreStock_id
        (orderPairs o.items) ps hndp (it.product, it.quantity)
        (List.mem_map.mpr ⟨it, hit, rfl⟩)
  · have herr : cancelOrderController o ps = .error .invalidState := by
      simp only [cancelOrderController, hb, Bool.false_eq_true, if_false]
    refine ⟨?_, fun _ => herr, ?_⟩
    · constructor
      · intro ⟨r, hr⟩
        rw [herr] at hr
        exact Except.noConfusion hr
      · intro hstat
        exact absurd (hcan.mpr hstat) hb
    · intro o' ps' heq
      rw [herr] at heq
      exact Except.noConfusion heq

/-- Witness for C6: a pending order over product 1 against a store holding
that product. -/
theorem cancelOrder_iff_witness :
    (orderEx.items.map (fun it => it.product)).Nodup
    ∧ ((∃ r, cancelOrderController orderEx [productEx] = .ok r)
        ↔ (orderEx.orderStatus = .pending ∨ orderEx.orderStatus = .confirmed)) :=
  ⟨by decide, (cancelOrder_iff orderEx [productEx] (by decide)).1⟩

end Ecom
